import Mathlib

/-!
# Verification of the RAG chatbot core (document chunking and retrieval pipeline)

A shallow embedding of the Python backend:

* `backend/document_processor.py` — whitespace normalization, sentence
  splitting, the greedy/overlapping chunker (`chunk_text`), and the course
  document parser (`process_course_document`).
* `backend/vector_store.py` — `SearchResults`, `_build_filter`,
  `_resolve_course_name` and `VectorStore.search`.

Strings are modelled with Lean `String` (a list of characters); the inputs of
interest are ASCII, and the Python regular expressions are embedded as
character-level scanners that agree with the source patterns on such inputs.
The external ChromaDB index is modelled as an oracle parameter: a query is a
function producing either a failure description or a reply holding parallel
ranked lists, exactly the shape the source reads out of `collection.query`.

The notes on each definition say which source lines it embeds.
-/

namespace Rag

/-- Characters the Python `str.strip()` / regex `\s` treat as whitespace
(ASCII fragment): space, tab, newline, carriage return, vertical tab and
form feed. -/
def isPySpace (c : Char) : Bool :=
  c = ' ' || c = '\t' || c = '\n' || c = '\r' || c = '\x0b' || c = '\x0c'

/-- `\w` of the Python regexes on ASCII input: letters, digits, underscore. -/
def isWordChar (c : Char) : Bool :=
  c.isAlpha || c.isDigit || c = '_'

/-- Remove leading whitespace (left part of `str.strip()`). -/
def stripLeft (cs : List Char) : List Char := cs.dropWhile isPySpace

/-- Python `str.strip()` on a character list. -/
def pyStripL (cs : List Char) : List Char :=
  ((cs.dropWhile isPySpace).reverse.dropWhile isPySpace).reverse

/-- Python `str.strip()` on a string. -/
def pyStripS (s : String) : String := ⟨pyStripL s.data⟩

/-- Replace every maximal whitespace run by a single space; the flag records
whether the previous character belonged to a whitespace run.  Together with
`pyStripL` this is `re.sub(r'\s+', ' ', text.strip())`
(document_processor.py line 29). -/
def collapseGo : Bool → List Char → List Char
  | _, [] => []
  | prevSpace, c :: rest =>
    if isPySpace c then
      if prevSpace then collapseGo true rest
      else ' ' :: collapseGo true rest
    else c :: collapseGo false rest

/-- `re.sub(r'\s+', ' ', text.strip())` (document_processor.py line 29). -/
def normalizeWs (s : String) : String := ⟨collapseGo false (pyStripL s.data)⟩

/-- Split a character list on a separator character, keeping empty pieces,
like Python `str.split(sep)`. -/
def splitOnChar (sep : Char) (cs : List Char) : List (List Char) :=
  cs.foldr
    (fun c acc =>
      match acc with
      | [] => [[c]]
      | piece :: rest => if c = sep then [] :: piece :: rest else (c :: piece) :: rest)
    [[]]

/-- `content.split('\n')` as a list of strings. -/
def splitLinesS (s : String) : List String := (splitOnChar '\n' s.data).map String.mk

/-- The sentence-boundary test of the regex
`(?<!\w\.\w.)(?<![A-Z][a-z]\.)(?<=\.|\!|\?)\s+(?=[A-Z])`
(document_processor.py line 34), evaluated at a space whose preceding
characters, nearest first, are `prev` and whose following characters are
`next`.  After `normalizeWs` every whitespace run is a single space, so the
separator `\s+` is exactly one space and the zero-width conditions are:
the space follows `.`, `!` or `?`; an uppercase letter follows the space;
and neither the abbreviation lookbehind `\w\.\w.` nor the initial lookbehind
`[A-Z][a-z]\.` matches just before the space. -/
def isBoundary (prev next : List Char) : Bool :=
  (match prev with
   | p1 :: _ => p1 = '.' || p1 = '!' || p1 = '?'
   | [] => false) &&
  (match next with
   | n1 :: _ => n1.isUpper
   | [] => false) &&
  !(match prev with
    | _ :: p2 :: p3 :: p4 :: _ => isWordChar p4 && p3 = '.' && isWordChar p2
    | _ => false) &&
  !(match prev with
    | p1 :: p2 :: p3 :: _ => p3.isUpper && p2.isLower && p1 = '.'
    | _ => false)

/-- Split a normalized character list at every boundary space, removing the
space, like `sentence_endings.split(text)` (document_processor.py line 35).
`prev` holds the characters already consumed, nearest first; `acc` holds the
current piece reversed. -/
def boundarySplit : List Char → List Char → List Char → List (List Char)
  | [], _, acc => [acc.reverse]
  | c :: rest, prev, acc =>
    if c = ' ' && isBoundary prev rest then
      acc.reverse :: boundarySplit rest (c :: prev) []
    else boundarySplit rest (c :: prev) (c :: acc)

/-- Normalize, split into sentences, strip each piece and drop empty pieces
(document_processor.py lines 29-38). -/
def sentencesOf (text : String) : List String :=
  (((boundarySplit (normalizeWs text).data [] []).map
      (fun cs => (⟨pyStripL cs⟩ : String))).filter (fun s => s ≠ ""))

/-- `' '.join(current_chunk)` (document_processor.py line 64). -/
def joinSp : List String → String
  | [] => ""
  | [s] => s
  | s :: t :: rest => s ++ " " ++ joinSp (t :: rest)

/-- `'\n'.join(lesson_content)` (document_processor.py lines 171, 221, 247). -/
def joinNl : List String → String
  | [] => ""
  | [s] => s
  | s :: t :: rest => s ++ "\n" ++ joinNl (t :: rest)

/-- The inner packing loop of `chunk_text` (document_processor.py lines
48-60): starting from the accumulated chunk `acc` of joined size `size`,
keep adding sentences while adding the next sentence (plus a joining space
when the chunk is nonempty) stays within `chunkSize`; an oversized sentence
is still admitted when the chunk is empty. -/
def packGo (chunkSize : Nat) : List String → List String → Nat → List String
  | [], acc, _ => acc
  | s :: rest, acc, size =>
    let spaceSize := if acc = [] then 0 else 1
    let totalAddition := s.length + spaceSize
    if chunkSize < size + totalAddition ∧ acc ≠ [] then acc
    else packGo chunkSize rest (acc ++ [s]) (size + totalAddition)

/-- The backward walk computing how many trailing sentences of the emitted
chunk fit in the overlap budget (document_processor.py lines 69-79).  The
walk runs over the reversed chunk; the flag marks the last sentence of the
chunk, which contributes no joining space. -/
def overlapWalk (overlap : Nat) : List String → Bool → Nat → Nat
  | [], _, _ => 0
  | s :: rest, isLast, size =>
    let sentenceLen := s.length + (if isLast then 0 else 1)
    if size + sentenceLen ≤ overlap then overlapWalk overlap rest false (size + sentenceLen) + 1
    else 0

/-- `overlap_sentences` for an emitted chunk (document_processor.py lines
68-79). -/
def overlapCount (overlap : Nat) (cur : List String) : Nat :=
  overlapWalk overlap cur.reverse true 0

/-- The next value of the loop index `i` after emitting the chunk built at
`i` (document_processor.py lines 66-86): with a positive overlap the index
moves to `i + len(chunk) - overlap_sentences` clamped to at least `i + 1`;
otherwise it moves past all consumed sentences. -/
def nextStart (chunkSize overlap : Nat) (sents : List String) (i : Nat) : Nat :=
  let cur := packGo chunkSize (sents.drop i) [] 0
  if 0 < overlap then max (i + cur.length - overlapCount overlap cur) (i + 1)
  else i + cur.length

/-- The main `while i < len(sentences)` loop of `chunk_text`
(document_processor.py lines 43-89), embedded with explicit fuel (each fuel
unit is one loop iteration; `none` means the fuel ran out before the loop
condition failed).  The result records, per emitted chunk, the start index
`i` at which it was built together with the joined chunk, plus the number of
iterations executed.  The `cur = []` branch mirrors the source's
`else: i += 1` arm, which emits nothing. -/
def chunkLoopF (chunkSize overlap : Nat) (sents : List String) :
    Nat → Nat → Option (List (Nat × String) × Nat)
  | 0, i => if i < sents.length then none else some ([], 0)
  | fuel + 1, i =>
    if i < sents.length then
      let cur := packGo chunkSize (sents.drop i) [] 0
      if cur = [] then
        match chunkLoopF chunkSize overlap sents fuel (i + 1) with
        | some (tr, n) => some (tr, n + 1)
        | none => none
      else
        match chunkLoopF chunkSize overlap sents fuel (nextStart chunkSize overlap sents i) with
        | some (tr, n) => some ((i, joinSp cur) :: tr, n + 1)
        | none => none
    else some ([], 0)

/-- The per-chunk trace of `chunk_text`: start index and chunk string for
each emitted chunk, run with fuel `len(sentences)` (shown sufficient by the
termination theorem below). -/
def chunkTrace (chunkSize overlap : Nat) (text : String) : List (Nat × String) :=
  let sents := sentencesOf text
  ((chunkLoopF chunkSize overlap sents sents.length 0).getD ([], 0)).1

/-- `DocumentProcessor.chunk_text` (document_processor.py lines 25-91):
the list of emitted chunks. -/
def chunkText (chunkSize overlap : Nat) (text : String) : List String :=
  (chunkTrace chunkSize overlap text).map Prod.snd

/-! ## Data model (models.py) -/

/-- `Lesson` (models.py).  Lesson numbers come from the `\d+` capture of the
marker regex, hence are non-negative; they are modelled as `Nat`. -/
structure Lesson where
  lesson_number : Nat
  title : String
  lesson_link : Option String := none
deriving DecidableEq

/-- `Course` (models.py). -/
structure Course where
  title : String
  course_link : Option String := none
  instructor : Option String := none
  lessons : List Lesson := []
deriving DecidableEq

/-- `CourseChunk` (models.py). -/
structure CourseChunk where
  content : String
  course_title : String
  lesson_number : Option Nat := none
  chunk_index : Nat
deriving DecidableEq

/-! ## Document parsing (document_processor.py, `process_course_document`)

`read_file` is file I/O and stays outside the embedding; the parser below
takes the decoded document text and the basename of the file. -/

/-- Case-insensitive ASCII equality, as `re.IGNORECASE` compares letters. -/
def lowerList (cs : List Char) : List Char := cs.map Char.toLower

/-- `re.match(r'^<label>\s*(.+)$', line, re.IGNORECASE)` followed by
`.group(1).strip()`, for the metadata labels `Course Title:`,
`Course Link:`, `Course Instructor:` and `Lesson Link:`.  The match succeeds
exactly when the line starts with the label (case-insensitively) and at
least one character follows; the captured group stripped of whitespace is
then the remainder of the line stripped (the greedy `\s*` plus `(.+)` with
backtracking yield the remainder minus leading whitespace, and an
all-whitespace remainder captures a single whitespace character — in every
case `group(1).strip()` equals the stripped remainder). -/
def matchHeader (label line : String) : Option String :=
  let lb := label.data
  let cs := line.data
  if lowerList (cs.take lb.length) = lowerList lb ∧ lb.length < cs.length then
    some ⟨pyStripL (cs.drop lb.length)⟩
  else none

/-- Digits of the `(\d+)` capture to the number `int()` produces. -/
def digitsToNat (cs : List Char) : Nat :=
  cs.foldl (fun n c => 10 * n + (c.toNat - 48)) 0

/-- `re.match(r'^Lesson\s+(\d+):\s*(.+)$', line, re.IGNORECASE)`
(document_processor.py line 166): the word `Lesson`, at least one
whitespace character, a digit run immediately followed by `:`, then a
non-empty remainder; yields the lesson number and `group(2).strip()`. -/
def matchLessonMarker (line : String) : Option (Nat × String) :=
  let cs := line.data
  if lowerList (cs.take 6) = "lesson".data then
    let r1 := cs.drop 6
    let ws := r1.takeWhile isPySpace
    if ws = [] then none
    else
      let r2 := r1.dropWhile isPySpace
      let ds := r2.takeWhile Char.isDigit
      if ds = [] then none
      else
        match r2.drop ds.length with
        | ':' :: r4 =>
          if r4 = [] then none
          else some (digitsToNat ds, ⟨pyStripL r4⟩)
        | _ => none
  else none

/-- `content.strip().split('\n')` (document_processor.py line 108). -/
def docLines (content : String) : List String := splitLinesS (pyStripS content)

/-- Course title extraction (document_processor.py lines 111-121): the
first line stripped, with the `Course Title:` label removed when present;
the filename when the first line is missing or blank. -/
def titleOf (lines : List String) (filename : String) : String :=
  match lines with
  | [] => filename
  | l0 :: _ =>
    let s := pyStripS l0
    if s = "" then filename
    else
      match matchHeader "Course Title:" s with
      | some t => t
      | none => s

/-- One step of the metadata loop (document_processor.py lines 124-139):
state is `(course_link, instructor_name)`; blank lines are skipped, a
`Course Link:` match updates the link, otherwise a `Course Instructor:`
match updates the instructor. -/
def metaStep (acc : Option String × String) (line : String) : Option String × String :=
  let l := pyStripS line
  if l = "" then acc
  else
    match matchHeader "Course Link:" l with
    | some u => (some u, acc.2)
    | none =>
      match matchHeader "Course Instructor:" l with
      | some inst => (acc.1, inst)
      | none => acc

/-- The metadata loop `for i in range(1, min(len(lines), 4))`
(document_processor.py lines 112-139): lines at indices 1, 2 and 3 are
scanned, starting from no link and the placeholder instructor `"Unknown"`. -/
def scanMeta (lines : List String) : Option String × String :=
  ((lines.drop 1).take 3).foldl metaStep (none, "Unknown")

/-- `start_index` (document_processor.py lines 156-159): body parsing
starts at line index 3, or 4 when line 3 exists and is blank. -/
def startIndexOf (lines : List String) : Nat :=
  if 3 < lines.length ∧ pyStripS (lines.getD 3 "") = "" then 4 else 3

/-- The mutable state of the body loop (document_processor.py lines
149-154): accumulated lessons and chunks, the running chunk counter, the
open lesson `(current_lesson, lesson_title, lesson_link)` when one exists,
and the accumulated content lines of the open lesson. -/
structure BodyState where
  lessons : List Lesson
  chunks : List CourseChunk
  counter : Nat
  cur : Option (Nat × String × Option String)
  content : List String
deriving DecidableEq

/-- Sealing the previous lesson when a new marker is found
(document_processor.py lines 168-197): when a lesson is open and its
accumulated content is a non-empty list whose joined text is non-blank, a
`Lesson` is appended and the text is chunked; only the first chunk receives
the `"Lesson <n> content: "` prefix. -/
def sealInterior (chunkSize overlap : Nat) (courseTitle : String) (st : BodyState) : BodyState :=
  match st.cur with
  | none => st
  | some (n, t, lk) =>
    if st.content = [] then st
    else
      let txt := pyStripS (joinNl st.content)
      if txt = "" then st
      else
        let cks := chunkText chunkSize overlap txt
        { st with
          lessons := st.lessons ++ [{ lesson_number := n, title := t, lesson_link := lk }],
          chunks := st.chunks ++ cks.enum.map (fun p =>
            { content := if p.1 = 0 then "Lesson " ++ toString n ++ " content: " ++ p.2 else p.2,
              course_title := courseTitle,
              lesson_number := some n,
              chunk_index := st.counter + p.1 }),
          counter := st.counter + cks.length }

/-- Sealing the trailing lesson after the loop (document_processor.py lines
219-243): same admission test as `sealInterior`, but every chunk — not only
the first — receives the `"Course <title> Lesson <n> content: "` prefix. -/
def sealFinal (chunkSize overlap : Nat) (courseTitle : String) (st : BodyState) : BodyState :=
  match st.cur with
  | none => st
  | some (n, t, lk) =>
    if st.content = [] then st
    else
      let txt := pyStripS (joinNl st.content)
      if txt = "" then st
      else
        let cks := chunkText chunkSize overlap txt
        { st with
          lessons := st.lessons ++ [{ lesson_number := n, title := t, lesson_link := lk }],
          chunks := st.chunks ++ cks.enum.map (fun p =>
            { content := "Course " ++ courseTitle ++ " Lesson " ++ toString n ++ " content: " ++ p.2,
              course_title := courseTitle,
              lesson_number := some n,
              chunk_index := st.counter + p.1 }),
          counter := st.counter + cks.length }

/-- The body scan `while i < len(lines)` (document_processor.py lines
161-217), with explicit fuel (one unit per loop iteration; each iteration
consumes at least one line, so fuel equal to the number of remaining lines
always suffices, and the fuel-out value is never reached then).  On a
lesson marker the previous lesson is sealed, the marker opens a new lesson,
and a `Lesson Link:` line immediately after the marker is consumed as the
lesson link; any other line is appended to the open content. -/
def bodyLoopF (chunkSize overlap : Nat) (courseTitle : String) :
    Nat → List String → BodyState → BodyState
  | 0, _, st => st
  | fuel + 1, lines, st =>
    match lines with
    | [] => st
    | line :: rest =>
      match matchLessonMarker (pyStripS line) with
      | some (n, t) =>
        let st1 := sealInterior chunkSize overlap courseTitle st
        match rest with
        | next :: rest2 =>
          (match matchHeader "Lesson Link:" (pyStripS next) with
           | some lk =>
             bodyLoopF chunkSize overlap courseTitle fuel rest2
               { st1 with cur := some (n, t, some lk), content := [] }
           | none =>
             bodyLoopF chunkSize overlap courseTitle fuel rest
               { st1 with cur := some (n, t, none), content := [] })
        | [] => { st1 with cur := some (n, t, none), content := [] }
      | none =>
        bodyLoopF chunkSize overlap courseTitle fuel rest
          { st with content := st.content ++ [line] }

/-- The body scan run with sufficient fuel. -/
def bodyLoop (chunkSize overlap : Nat) (courseTitle : String)
    (lines : List String) (st : BodyState) : BodyState :=
  bodyLoopF chunkSize overlap courseTitle lines.length lines st

/-- The body state after scanning all lines from `start_index` and sealing
the trailing lesson. -/
def bodyState (chunkSize overlap : Nat) (courseTitle : String)
    (lines : List String) (startIndex : Nat) : BodyState :=
  sealFinal chunkSize overlap courseTitle
    (bodyLoop chunkSize overlap courseTitle (lines.drop startIndex)
      { lessons := [], chunks := [], counter := 0, cur := none, content := [] })

/-- The returned chunk list, including the no-lesson fallback
(document_processor.py lines 245-257): when no chunks were produced and the
document has more than two lines, the whole body from `start_index` is
chunked as one anonymous unit with no lesson number. -/
def finalChunks (chunkSize overlap : Nat) (courseTitle : String)
    (lines : List String) (startIndex : Nat) : List CourseChunk :=
  let st := bodyState chunkSize overlap courseTitle lines startIndex
  if st.chunks = [] ∧ 2 < lines.length then
    let remaining := pyStripS (joinNl (lines.drop startIndex))
    if remaining = "" then st.chunks
    else
      (chunkText chunkSize overlap remaining).enum.map (fun p =>
        { content := p.2,
          course_title := courseTitle,
          lesson_number := none,
          chunk_index := st.counter + p.1 })
  else st.chunks

/-- `DocumentProcessor.process_course_document` (document_processor.py
lines 97-259) on the decoded document text and the file basename.  The
instructor placeholder `"Unknown"` is replaced by `None` on the returned
`Course` (line 145). -/
def processCourseDocument (chunkSize overlap : Nat) (content filename : String) :
    Course × List CourseChunk :=
  ({ title := titleOf (docLines content) filename,
     course_link := (scanMeta (docLines content)).1,
     instructor :=
       if (scanMeta (docLines content)).2 ≠ "Unknown" then some (scanMeta (docLines content)).2
       else none,
     lessons :=
       (bodyState chunkSize overlap (titleOf (docLines content) filename) (docLines content)
         (startIndexOf (docLines content))).lessons },
   finalChunks chunkSize overlap (titleOf (docLines content) filename) (docLines content)
     (startIndexOf (docLines content)))

/-- Chunk attribution invariant: every chunk carrying a lesson number is
attributed to a lesson present in the accumulated lessons list. -/
def chunksOk (st : BodyState) : Prop :=
  ∀ ch ∈ st.chunks, ∀ n, ch.lesson_number = some n →
    n ∈ st.lessons.map Lesson.lesson_number

/-! ## Vector store (vector_store.py)

The ChromaDB collections are external; a content query is modelled as an
oracle function from the arguments the source passes (`query` text, filter,
`n_results`) to either a failure description (a raised exception's message)
or a `ChromaReply` — the dictionary of parallel ranked lists, one inner
list per query text, that `collection.query` returns.  Metadata entries and
distances are pass-through values and stay abstract (`M`, `D`); catalog
metadata exposes its `'title'` key through a lookup function, `none`
modelling a missing key (whose `KeyError` the source catches). -/

/-- The dictionary shape `collection.query` returns: outer list per query
text, inner list per ranked match. -/
structure ChromaReply (M D : Type) where
  documents : List (List String)
  metadatas : List (List M)
  distances : List (List D)

/-- A metadata value in a ChromaDB `where` filter. -/
inductive ChromaVal where
  | str : String → ChromaVal
  | int : Int → ChromaVal
deriving DecidableEq

/-- A ChromaDB `where` filter as built by `_build_filter`: an equality
predicate `{field: value}` or a conjunction `{"$and": [...]}`. -/
inductive WhereClause where
  | eq : String → ChromaVal → WhereClause
  | conj : List WhereClause → WhereClause

/-- `SearchResults` (vector_store.py lines 8-32). -/
structure SearchResults (M D : Type) where
  documents : List String
  metadata : List M
  distances : List D
  error : Option String := none

/-- `SearchResults.from_chroma` (vector_store.py lines 16-23): take the
first inner list of each field when the outer list is non-empty (Python
truthiness), else the empty list. -/
def SearchResults.fromChroma {M D : Type} (r : ChromaReply M D) : SearchResults M D :=
  { documents := r.documents.head?.getD []
    metadata := r.metadatas.head?.getD []
    distances := r.distances.head?.getD []
    error := none }

/-- `SearchResults.empty` (vector_store.py lines 25-28). -/
def SearchResults.emptyWith (M D : Type) (errorMsg : String) : SearchResults M D :=
  { documents := [], metadata := [], distances := [], error := some errorMsg }

/-- `SearchResults.is_empty` (vector_store.py lines 30-32). -/
def SearchResults.isEmptyRes {M D : Type} (r : SearchResults M D) : Bool :=
  r.documents.length = 0

/-- Python truthiness of an optional string: `None` and `""` are falsy. -/
def strTruthy : Option String → Bool
  | none => false
  | some s => !s.isEmpty

/-- `VectorStore._resolve_course_name` (vector_store.py lines 102-116) on
the reply of the single `n_results=1` catalog query.  A raised failure, a
missing outer list (an `IndexError` on `[0]`), a falsy first inner list, or
a missing `'title'` key (a `KeyError`) all fall through to `None`;
otherwise the `'title'` of the first metadata entry is returned. -/
def resolveCourseName {M D : Type} (getTitle : M → Option String)
    (reply : Except String (ChromaReply M D)) : Option String :=
  match reply with
  | .error _ => none
  | .ok r =>
    match r.documents.head?, r.metadatas.head? with
    | some d0, some m0 =>
      if !d0.isEmpty && !m0.isEmpty then
        match m0.head? with
        | some m => getTitle m
        | none => none
      else none
    | _, _ => none

/-- `VectorStore._build_filter` (vector_store.py lines 118-133).  The
course title is tested by Python truthiness (`not course_title` /
`if course_title`), so an empty-string title behaves as absent; the lesson
number is tested by `is None` / `is not None`. -/
def buildFilter (courseTitle : Option String) (lessonNumber : Option Int) : Option WhereClause :=
  if !strTruthy courseTitle && lessonNumber.isNone then none
  else if strTruthy courseTitle && lessonNumber.isSome then
    some (.conj [.eq "course_title" (.str (courseTitle.getD "")),
                 .eq "lesson_number" (.int (lessonNumber.getD 0))])
  else if strTruthy courseTitle then
    some (.eq "course_title" (.str (courseTitle.getD "")))
  else
    some (.eq "lesson_number" (.int (lessonNumber.getD 0)))

/-- `VectorStore.search` (vector_store.py lines 61-100).  `catalogReply`
is the outcome of the catalog query `_resolve_course_name` would issue;
`contentQuery` is the content-collection oracle taking the query text, the
filter and `n_results`.  When `course_name` is truthy and resolution yields
a falsy title, the error result is returned before any content query. -/
def vsSearch {M D : Type} (getTitle : M → Option String)
    (catalogReply : Except String (ChromaReply M D))
    (contentQuery : String → Option WhereClause → Nat → Except String (ChromaReply M D))
    (queryText : String) (courseName : Option String) (lessonNumber : Option Int)
    (limit : Option Nat) (maxResults : Nat) : SearchResults M D :=
  let courseTitle :=
    if strTruthy courseName then resolveCourseName getTitle catalogReply else none
  if strTruthy courseName && !strTruthy courseTitle then
    SearchResults.emptyWith M D
      ("No course found matching \x27" ++ courseName.getD "" ++ "\x27")
  else
    match contentQuery queryText (buildFilter courseTitle lessonNumber) (limit.getD maxResults) with
    | .error e => SearchResults.emptyWith M D ("Search error: " ++ e)
    | .ok r => SearchResults.fromChroma r

/-! ## Reference definitions used to state refinement claims

These follow the wording of the specification claims, not the source, and
are compared with the source-derived definitions in the theorems below. -/

/-- Reference for claim C8: the value recognized for a header is the last
match of the header pattern over the scanned lines. -/
def lastMatch (f : String → Option String) : List String → Option String
  | [] => none
  | l :: ls =>
    match lastMatch f ls with
    | some u => some u
    | none => f l

/-- Reference for claim C9: the marked lessons of a document body, in
order, each as `(lesson_number, title, link)` paired with its accumulated
body lines — every lesson a marker opens, whether or not its body is
empty.  Fuelled like `bodyLoopF`; fuel equal to the number of lines always
suffices. -/
def lessonSegmentsF : Nat → List String → Option (Nat × String × Option String) →
    List String → List ((Nat × String × Option String) × List String)
  | 0, _, cur, content =>
    (match cur with
     | some c => [(c, content)]
     | none => [])
  | fuel + 1, lines, cur, content =>
    match lines with
    | [] =>
      (match cur with
       | some c => [(c, content)]
       | none => [])
    | line :: rest =>
      match matchLessonMarker (pyStripS line) with
      | some (n, t) =>
        let sealed :=
          (match cur with
           | some c => [(c, content)]
           | none => [])
        match rest with
        | next :: rest2 =>
          (match matchHeader "Lesson Link:" (pyStripS next) with
           | some lk => sealed ++ lessonSegmentsF fuel rest2 (some (n, t, some lk)) []
           | none => sealed ++ lessonSegmentsF fuel rest (some (n, t, none)) [])
        | [] => sealed ++ [((n, t, none), [])]
      | none => lessonSegmentsF fuel rest cur (content ++ [line])

/-- Reference for claim C9: the marked lessons of a body. -/
def lessonSegments (lines : List String) : List ((Nat × String × Option String) × List String) :=
  lessonSegmentsF lines.length lines none []

/-- Reference for claim C9: the `Lesson` a segment contributes, or `none`
when its accumulated body text is empty after trimming. -/
def segLesson (seg : (Nat × String × Option String) × List String) : Option Lesson :=
  if pyStripS (joinNl seg.2) = "" then none
  else some { lesson_number := seg.1.1, title := seg.1.2.1, lesson_link := seg.1.2.2 }

/-! ## Concrete documents used in the claim instances -/

/-- The document of end-to-end scenario A (claim C1). -/
def docScenarioA : String :=
  "Course Title: Intro\nCourse Instructor: Ada\n\nLesson 0: Start\nHello world. This is lesson zero."

/-- A document whose instructor header sits on line 2 and whose course-link
header sits on line 3 (claim C8). -/
def docMisplacedHeaders : String :=
  "T\nCourse Instructor: Ada\nCourse Link: http://x\nBody here."

/-- A document whose first marked lesson is immediately followed by another
marker, so its accumulated body is empty (claim C9). -/
def docEmptyLesson : String :=
  "T\nx\ny\nLesson 1: A\nLesson 2: B\nBody."

/-- A document whose instructor header value is literally `Unknown`
(claim C10). -/
def docUnknownInstructor : String :=
  "Course Title: Intro\nCourse Instructor: Unknown\n\nLesson 0: Start\nHello world."

/-! ## Lemmas about the packing loop -/

theorem packGo_take (cs : Nat) :
    ∀ (rest acc : List String) (size : Nat),
      ∃ k, k ≤ rest.length ∧ packGo cs rest acc size = acc ++ rest.take k := by
  intro rest
  induction rest with
  | nil => intro acc size; exact ⟨0, by simp [packGo]⟩
  | cons s rest ih =>
    intro acc size
    rw [packGo]
    by_cases h : cs < size + (s.length + if acc = [] then 0 else 1) ∧ acc ≠ []
    · exact ⟨0, by simp, by rw [if_pos h]; simp⟩
    · obtain ⟨k, hk, he⟩ := ih (acc ++ [s]) (size + (s.length + if acc = [] then 0 else 1))
      exact ⟨k + 1, by simp; omega, by simp [h, he]⟩

theorem packGo_cons_nil (cs : Nat) (s : String) (rest : List String) :
    packGo cs (s :: rest) [] 0 = packGo cs rest [s] s.length := by
  rw [packGo]; simp

theorem packGo_ne_nil (cs : Nat) (s : String) (rest : List String) :
    packGo cs (s :: rest) [] 0 ≠ [] := by
  rw [packGo_cons_nil]
  obtain ⟨k, _, he⟩ := packGo_take cs rest [s] s.length
  simp [he]

theorem packGo_head (cs : Nat) (s : String) (rest : List String) :
    (packGo cs (s :: rest) [] 0).head? = some s := by
  rw [packGo_cons_nil]
  obtain ⟨k, _, he⟩ := packGo_take cs rest [s] s.length
  simp [he]

theorem packGo_overflow (cs : Nat) (rest acc : List String) (size : Nat)
    (hacc : acc ≠ []) (hover : cs < size) : packGo cs rest acc size = acc := by
  cases rest with
  | nil => rw [packGo]
  | cons s rest =>
    rw [packGo]
    have h2 : cs < size + (s.length + if acc = [] then 0 else 1) ∧ acc ≠ [] :=
      ⟨by omega, hacc⟩
    rw [if_pos h2]

theorem joinSp_cons_cons (a b : String) (l : List String) :
    joinSp (a :: b :: l) = a ++ " " ++ joinSp (b :: l) := rfl

theorem joinSp_append_singleton :
    ∀ (l : List String) (s : String), l ≠ [] → joinSp (l ++ [s]) = joinSp l ++ " " ++ s := by
  intro l
  induction l with
  | nil => intro s h; exact absurd rfl h
  | cons a t ih =>
    intro s _
    cases t with
    | nil => rfl
    | cons b t2 =>
      have h1 : joinSp (a :: b :: t2 ++ [s]) = a ++ " " ++ joinSp (b :: t2 ++ [s]) := rfl
      rw [h1, ih s (by simp), joinSp_cons_cons]
      simp [String.append_assoc]

theorem packGo_size_le (cs : Nat) :
    ∀ (rest acc : List String) (size : Nat), acc ≠ [] →
      size = (joinSp acc).length → size ≤ cs →
      (joinSp (packGo cs rest acc size)).length ≤ cs := by
  intro rest
  induction rest with
  | nil => intro acc size hacc hsz hle; rw [packGo]; omega
  | cons s rest ih =>
    intro acc size hacc hsz hle
    rw [packGo]
    by_cases hover : cs < size + (s.length + if acc = [] then 0 else 1) ∧ acc ≠ []
    · simp only [if_pos hover]; omega
    · simp only [if_neg hover]
      have hfit : size + (s.length + if acc = [] then 0 else 1) ≤ cs := by
        rcases not_and_or.mp hover with h | h
        · omega
        · exact absurd hacc h
      refine ih (acc ++ [s]) _ (by simp) ?_ hfit
      rw [joinSp_append_singleton acc s hacc]
      simp only [String.length_append, if_neg hacc]
      have : (" " : String).length = 1 := rfl
      omega

theorem packGo_dichotomy (cs : Nat) (s : String) (rest : List String) :
    (joinSp (packGo cs (s :: rest) [] 0)).length ≤ cs ∨
      (packGo cs (s :: rest) [] 0 = [s] ∧ cs < s.length) := by
  rw [packGo_cons_nil]
  by_cases h : cs < s.length
  · exact Or.inr ⟨packGo_overflow cs rest [s] s.length (by simp) h, h⟩
  · exact Or.inl (packGo_size_le cs rest [s] s.length (by simp) (by simp [joinSp]) (by omega))

/-! ## Lemmas about the main chunking loop -/

theorem drop_ne_nil_of_lt {α : Type} (l : List α) (i : Nat) (h : i < l.length) :
    l.drop i ≠ [] := by
  intro he
  rw [List.drop_eq_nil_iff] at he
  omega

theorem nextStart_lt (cs ov : Nat) (sents : List String) (i : Nat)
    (h : i < sents.length) : i < nextStart cs ov sents i := by
  have hne : packGo cs (sents.drop i) [] 0 ≠ [] := by
    obtain ⟨s, rest, he⟩ := List.exists_cons_of_ne_nil (drop_ne_nil_of_lt sents i h)
    rw [he]; exact packGo_ne_nil cs s rest
  have hlen : 0 < (packGo cs (sents.drop i) [] 0).length := List.length_pos.mpr hne
  rw [nextStart]
  by_cases hov : 0 < ov
  · simp only [if_pos hov]; omega
  · simp only [if_neg hov]; omega

/-- Master invariant of `chunkLoopF`: with fuel at least the number of
unconsumed sentences the loop completes; the iteration count is bounded by
the number of unconsumed sentences; each trace entry records a start index
in range together with the chunk packed there; consecutive entries are
linked by `nextStart` and strictly increase; and the first entry (when the
loop runs at all) starts at the initial index. -/
theorem chunkLoopF_spec (cs ov : Nat) (sents : List String) :
    ∀ fuel i, sents.length - i ≤ fuel →
    ∃ tr n, chunkLoopF cs ov sents fuel i = some (tr, n) ∧
      n ≤ sents.length - i ∧
      (∀ p ∈ tr, i ≤ p.1 ∧ p.1 < sents.length ∧
        p.2 = joinSp (packGo cs (sents.drop p.1) [] 0)) ∧
      List.Chain' (fun p q : Nat × String => q.1 = nextStart cs ov sents p.1 ∧ p.1 < q.1) tr ∧
      (i < sents.length → ∃ c rest, tr = (i, c) :: rest) ∧
      (sents.length ≤ i → tr = []) := by
  intro fuel
  induction fuel with
  | zero =>
    intro i hf
    have hge : sents.length ≤ i := by omega
    have hlt : ¬ i < sents.length := by omega
    refine ⟨[], 0, ?_, by omega, by simp, by simp, fun h => absurd h hlt, fun _ => rfl⟩
    simp [chunkLoopF, hlt]
  | succ fuel ih =>
    intro i hf
    by_cases hlt : i < sents.length
    · have hne : packGo cs (sents.drop i) [] 0 ≠ [] := by
        obtain ⟨s, rest, he⟩ := List.exists_cons_of_ne_nil (drop_ne_nil_of_lt sents i hlt)
        rw [he]; exact packGo_ne_nil cs s rest
      have hnext : i < nextStart cs ov sents i := nextStart_lt cs ov sents i hlt
      have hf2 : sents.length - nextStart cs ov sents i ≤ fuel := by omega
      obtain ⟨tr, n, heq, hn, hent, hchain, hhead, htail⟩ := ih (nextStart cs ov sents i) hf2
      refine ⟨(i, joinSp (packGo cs (sents.drop i) [] 0)) :: tr, n + 1, ?_, by omega, ?_, ?_,
        fun _ => ⟨_, tr, rfl⟩, fun h => by omega⟩
      · rw [chunkLoopF]
        simp only [if_pos hlt, if_neg hne, heq]
      · intro p hp
        rcases List.mem_cons.mp hp with h | h
        · subst h; exact ⟨le_refl i, hlt, rfl⟩
        · obtain ⟨h1, h2, h3⟩ := hent p h
          exact ⟨by omega, h2, h3⟩
      · cases tr with
        | nil => simp
        | cons q t =>
          obtain ⟨c, rest, he⟩ := hhead (by
            by_contra hge
            exact absurd (htail (by omega)) (by simp))
          rw [he]
          rw [he] at hchain
          exact List.Chain'.cons ⟨rfl, hnext⟩ hchain
    · refine ⟨[], 0, ?_, by omega, by simp, by simp, fun h => absurd h hlt, fun _ => rfl⟩
      rw [chunkLoopF]
      simp [hlt]

/-- The element of `l` at index `j` belongs to the window `(l.drop i).take k`
when `j` falls inside it. -/
theorem mem_take_drop_of_lt {α : Type} (l : List α) (i j k : Nat) (hij : i ≤ j)
    (hj : j < l.length) (hjk : j - i < ((l.drop i).take k).length) :
    l[j] ∈ (l.drop i).take k := by
  have h1 := List.get_mem ((l.drop i).take k) (j - i) hjk
  have h2 : ((l.drop i).take k).get ⟨j - i, hjk⟩ = l[j] := by
    rw [List.get_eq_getElem, List.getElem_take, List.getElem_drop]
    congr 1
    show i + (j - i) = j
    omega
  rw [← h2]
  exact h1

/-! ## Claim C2: chunk size bound -/

/-- **C2.** For every input text and every `max_size`, every chunk emitted
by `chunk_text` has length at most `max_size`, except a chunk consisting of
exactly one sentence whose own length exceeds `max_size` (the sentence
admitted while the chunk under construction was still empty). -/
theorem c2_chunk_size_bound (text : String) (chunkSize overlap : Nat) (c : String)
    (hc : c ∈ chunkText chunkSize overlap text) :
    c.length ≤ chunkSize ∨
      ∃ s, s ∈ sentencesOf text ∧ c = s ∧ chunkSize < s.length := by
  obtain ⟨tr, n, heq, _, hent, _, _, _⟩ :=
    chunkLoopF_spec chunkSize overlap (sentencesOf text) (sentencesOf text).length 0 (by omega)
  rw [chunkText, chunkTrace] at hc
  simp only [heq, Option.getD_some] at hc
  obtain ⟨p, hp, hpc⟩ := List.mem_map.mp hc
  obtain ⟨_, hplt, hpe⟩ := hent p hp
  obtain ⟨s, rest, hdrop⟩ :=
    List.exists_cons_of_ne_nil (drop_ne_nil_of_lt (sentencesOf text) p.1 hplt)
  rw [hdrop] at hpe
  rcases packGo_dichotomy chunkSize s rest with h | ⟨hcur, hbig⟩
  · left
    rw [← hpc, hpe]
    exact h
  · right
    refine ⟨s, ?_, ?_, hbig⟩
    · exact List.drop_subset p.1 (sentencesOf text) (hdrop ▸ List.mem_cons_self s rest)
    · rw [← hpc, hpe, hcur]
      rfl

/-- **C2 witness.** A concrete instance: on a two-sentence text with budget
50 the single emitted chunk is within the budget. -/
theorem c2_chunk_size_bound_witness :
    ("Hello there. Bye now." ∈ chunkText 50 0 "Hello there. Bye now.") ∧
      (("Hello there. Bye now." : String).length ≤ 50 ∨
        ∃ s, s ∈ sentencesOf "Hello there. Bye now." ∧
          "Hello there. Bye now." = s ∧ 50 < s.length) :=
  ⟨by decide, c2_chunk_size_bound "Hello there. Bye now." 50 0 "Hello there. Bye now." (by decide)⟩

/-! ## Claim C3: forward progress and termination -/

/-- **C3.** For every input text and configuration, the main loop of
`chunk_text` completes within `len(sentences)` units of fuel — one unit per
iteration, so it terminates after at most `len(sentences)` iterations —
and the start indices recorded for consecutive emitted chunks strictly
increase. -/
theorem c3_progress_termination (text : String) (chunkSize overlap : Nat) :
    ∃ tr iters,
      chunkLoopF chunkSize overlap (sentencesOf text) (sentencesOf text).length 0
        = some (tr, iters) ∧
      iters ≤ (sentencesOf text).length ∧
      List.Chain' (· < ·) (tr.map Prod.fst) ∧
      chunkTrace chunkSize overlap text = tr := by
  obtain ⟨tr, n, heq, hn, _, hchain, _, _⟩ :=
    chunkLoopF_spec chunkSize overlap (sentencesOf text) (sentencesOf text).length 0 (by omega)
  refine ⟨tr, n, heq, by omega, ?_, ?_⟩
  · rw [List.chain'_map]
    exact hchain.imp (fun a b h => h.2)
  · rw [chunkTrace]
    simp [heq]

/-! ## Claim C4: overlap carry-over between consecutive chunks -/

/-- **C4 (amended).** For every text chunked with `overlap > 0`, consecutive
chunks `k` and `k+1` of the trace share a full sentence — the sentence the
second chunk starts with also occurs in the first chunk — provided the
carried-over window is non-zero **and** chunk `k` packs at least two
sentences; when chunk `k` is a single sentence the forward-progress clamp
`max(..., i+1)` skips the overlap even though the window is non-zero. -/
theorem c4_overlap_shared_sentence (text : String) (chunkSize overlap : Nat)
    (k i₁ i₂ : Nat) (c₁ c₂ : String)
    (h₁ : (chunkTrace chunkSize overlap text)[k]? = some (i₁, c₁))
    (h₂ : (chunkTrace chunkSize overlap text)[k + 1]? = some (i₂, c₂))
    (hov : 0 < overlap)
    (hw : 0 < overlapCount overlap (packGo chunkSize ((sentencesOf text).drop i₁) [] 0))
    (hlen : 2 ≤ (packGo chunkSize ((sentencesOf text).drop i₁) [] 0).length) :
    ∃ s, s ∈ packGo chunkSize ((sentencesOf text).drop i₁) [] 0 ∧
      (packGo chunkSize ((sentencesOf text).drop i₂) [] 0).head? = some s ∧
      c₂ = joinSp (packGo chunkSize ((sentencesOf text).drop i₂) [] 0) := by
  obtain ⟨tr, n, heq, _, hent, hchain, _, _⟩ :=
    chunkLoopF_spec chunkSize overlap (sentencesOf text) (sentencesOf text).length 0 (by omega)
  have htr : chunkTrace chunkSize overlap text = tr := by
    rw [chunkTrace]; simp [heq]
  rw [htr] at h₁ h₂
  obtain ⟨hk1, he1⟩ := List.getElem?_eq_some.mp h₁
  obtain ⟨hk2, he2⟩ := List.getElem?_eq_some.mp h₂
  have hrel := List.chain'_iff_get.mp hchain k (by omega)
  rw [List.get_eq_getElem, List.get_eq_getElem, he1, he2] at hrel
  obtain ⟨hnext, hlt12⟩ := hrel
  obtain ⟨_, hi2lt, he2c⟩ := hent (i₂, c₂) (he2 ▸ List.getElem_mem hk2)
  -- the second chunk starts strictly inside the first chunk's window
  have hi2small : i₂ < i₁ + (packGo chunkSize ((sentencesOf text).drop i₁) [] 0).length := by
    rw [nextStart] at hnext
    simp only [if_pos hov] at hnext
    omega
  -- the shared sentence is the one at index `i₂`
  refine ⟨(sentencesOf text)[i₂], ?_, ?_, he2c⟩
  · obtain ⟨k0, hk0, hpk⟩ := packGo_take chunkSize ((sentencesOf text).drop i₁) [] 0
    simp only [List.nil_append] at hpk
    rw [hpk]
    apply mem_take_drop_of_lt (sentencesOf text) i₁ i₂ k0 (by omega) hi2lt
    rw [← hpk]
    omega
  · rw [List.drop_eq_getElem_cons hi2lt]
    exact packGo_head chunkSize _ _

/-- **C4 witness.** A concrete three-sentence text with `max_size = 13`,
`overlap = 6`: the first two chunks share the sentence `"Cc dd."`. -/
theorem c4_overlap_shared_sentence_witness :
    ∃ s, s ∈ packGo 13 ((sentencesOf "Aa bb. Cc dd. Ee ff.").drop 0) [] 0 ∧
      (packGo 13 ((sentencesOf "Aa bb. Cc dd. Ee ff.").drop 1) [] 0).head? = some s ∧
      "Cc dd. Ee ff." = joinSp (packGo 13 ((sentencesOf "Aa bb. Cc dd. Ee ff.").drop 1) [] 0) :=
  c4_overlap_shared_sentence "Aa bb. Cc dd. Ee ff." 13 6 0 0 1 "Aa bb. Cc dd." "Cc dd. Ee ff."
    (by decide) (by decide) (by decide) (by decide) (by decide)

/-- **C4 counterexample.** The claim as stated fails: for the text
`"Aaaaaa. Bbbbbb."` with `max_size = 5`, `overlap = 10` there are two
chunks, the overlap is positive, the carried-over window is `1` (the
boundary sentence, of length 7, fits the overlap budget 10), and yet the
two chunks share no sentence: the first chunk packs only sentence 0 and the
second starts at sentence 1, because the forward-progress clamp overrides
the overlap for a single-sentence chunk. -/
theorem c4_counterexample :
    (0 : Nat) < 10 ∧
    chunkTrace 5 10 "Aaaaaa. Bbbbbb." = [(0, "Aaaaaa."), (1, "Bbbbbb.")] ∧
    packGo 5 ((sentencesOf "Aaaaaa. Bbbbbb.").drop 0) [] 0 = ["Aaaaaa."] ∧
    packGo 5 ((sentencesOf "Aaaaaa. Bbbbbb.").drop 1) [] 0 = ["Bbbbbb."] ∧
    overlapCount 10 ["Aaaaaa."] = 1 ∧
    ("Aaaaaa." : String).length ≤ 10 ∧
    ∀ s, s ∈ (["Aaaaaa."] : List String) → s ∉ (["Bbbbbb."] : List String) := by
  refine ⟨by decide, by decide, by decide, by decide, by decide, by decide, by decide⟩

/-! ## Claim C1: end-to-end scenario A -/

/-- **C1 counterexample.** Processing the scenario-A document with
`max_size = 100`, `overlap = 0` does produce one course `Intro` with one
lesson `0: Start` and exactly one chunk, but the chunk's content is **not**
`"Lesson 0 content: Hello world. This is lesson zero."`: the single lesson
is the trailing lesson, whose chunks get the
`"Course <title> Lesson <n> content: "` prefix instead. -/
theorem c1_counterexample :
    (processCourseDocument 100 0 docScenarioA "script.txt").2.map CourseChunk.content
        = ["Course Intro Lesson 0 content: Hello world. This is lesson zero."] ∧
      "Lesson 0 content: Hello world. This is lesson zero." ∉
        (processCourseDocument 100 0 docScenarioA "script.txt").2.map CourseChunk.content := by
  exact ⟨by decide, by decide⟩

/-- **C1 (amended).** Scenario A yields one Course titled `Intro` with
instructor `Ada`, one Lesson numbered 0 titled `Start`, and exactly one
chunk whose content is
`"Course Intro Lesson 0 content: Hello world. This is lesson zero."`
(the trailing-lesson prefix rule applies, since the only lesson is the
final one). -/
theorem c1_scenario_a :
    processCourseDocument 100 0 docScenarioA "script.txt"
      = ({ title := "Intro", course_link := none, instructor := some "Ada",
           lessons := [{ lesson_number := 0, title := "Start", lesson_link := none }] },
         [{ content := "Course Intro Lesson 0 content: Hello world. This is lesson zero.",
            course_title := "Intro", lesson_number := some 0, chunk_index := 0 }]) := by
  decide

/-! ## Claim C8: position of the metadata headers -/

theorem matchHeader_blank (label : String) : matchHeader label "" = none := by
  rw [matchHeader]
  have h : ¬ (label.data.length < ("" : String).data.length) := by simp
  rw [if_neg (by exact fun hc => h hc.2)]

/-- A line cannot match both the `Course Link:` and the `Course Instructor:`
header patterns: the two labels differ within their first twelve
characters. -/
theorem matchHeader_link_instructor_exclusive (s : String) (u : String)
    (h : matchHeader "Course Link:" s = some u) :
    matchHeader "Course Instructor:" s = none := by
  rw [matchHeader] at h ⊢
  have hL : ("Course Link:" : String).data.length = 12 := rfl
  have hI : ("Course Instructor:" : String).data.length = 18 := rfl
  rw [hL] at h
  rw [hI]
  by_cases hi : lowerList (s.data.take 18)
      = lowerList ("Course Instructor:" : String).data ∧ 18 < s.data.length
  · exfalso
    by_cases hl : lowerList (s.data.take 12)
        = lowerList ("Course Link:" : String).data ∧ 12 < s.data.length
    · have h12 : (lowerList (s.data.take 18)).take 12 = lowerList (s.data.take 12) := by
        rw [lowerList, lowerList, ← List.map_take, List.take_take]
        norm_num
      have hcontra : lowerList ("Course Link:" : String).data
          = (lowerList ("Course Instructor:" : String).data).take 12 := by
        rw [← hi.1, ← hl.1, h12]
      revert hcontra
      decide
    · rw [if_neg hl] at h
      exact Option.noConfusion h
  · rw [if_neg hi]

theorem metaStep_link (a : Option String × String) (l : String) :
    (metaStep a l).1
      = match matchHeader "Course Link:" (pyStripS l) with
        | some u => some u
        | none => a.1 := by
  rw [metaStep]
  by_cases hb : pyStripS l = ""
  · rw [if_pos hb, hb, matchHeader_blank]
  · rw [if_neg hb]
    cases hf : matchHeader "Course Link:" (pyStripS l) with
    | some u => rfl
    | none =>
      cases hg : matchHeader "Course Instructor:" (pyStripS l) <;> rfl

theorem metaStep_instructor (a : Option String × String) (l : String) :
    (metaStep a l).2
      = match matchHeader "Course Instructor:" (pyStripS l) with
        | some v => v
        | none => a.2 := by
  rw [metaStep]
  by_cases hb : pyStripS l = ""
  · rw [if_pos hb, hb, matchHeader_blank]
  · rw [if_neg hb]
    cases hf : matchHeader "Course Link:" (pyStripS l) with
    | some u =>
      rw [matchHeader_link_instructor_exclusive (pyStripS l) u hf]
    | none =>
      cases hg : matchHeader "Course Instructor:" (pyStripS l) <;> rfl

theorem scanFold_link :
    ∀ (ls : List String) (a : Option String × String),
      (List.foldl metaStep a ls).1
        = match lastMatch (fun l => matchHeader "Course Link:" (pyStripS l)) ls with
          | some u => some u
          | none => a.1 := by
  intro ls
  induction ls with
  | nil => intro a; rfl
  | cons l ls ih =>
    intro a
    rw [List.foldl_cons, ih (metaStep a l), lastMatch]
    cases hm : lastMatch (fun l => matchHeader "Course Link:" (pyStripS l)) ls with
    | some u => rfl
    | none =>
      rw [metaStep_link]

theorem scanFold_instructor :
    ∀ (ls : List String) (a : Option String × String),
      (List.foldl metaStep a ls).2
        = match lastMatch (fun l => matchHeader "Course Instructor:" (pyStripS l)) ls with
          | some v => v
          | none => a.2 := by
  intro ls
  induction ls with
  | nil => intro a; rfl
  | cons l ls ih =>
    intro a
    rw [List.foldl_cons, ih (metaStep a l), lastMatch]
    cases hm : lastMatch (fun l => matchHeader "Course Instructor:" (pyStripS l)) ls with
    | some v => rfl
    | none =>
      rw [metaStep_instructor]

/-- **C8 counterexample.** The claim as stated fails: in
`docMisplacedHeaders` the instructor header sits on line 2 (index 1) and
the course-link header on line 3 (index 2) — the positions the claim says
are reserved for the link and the instructor respectively — and both are
nevertheless recognized. -/
theorem c8_counterexample :
    pyStripS ((docLines docMisplacedHeaders).getD 1 "") = "Course Instructor: Ada" ∧
    pyStripS ((docLines docMisplacedHeaders).getD 2 "") = "Course Link: http://x" ∧
    (processCourseDocument 100 0 docMisplacedHeaders "f.txt").1.course_link = some "http://x" ∧
    (processCourseDocument 100 0 docMisplacedHeaders "f.txt").1.instructor = some "Ada" := by
  exact ⟨by decide, by decide, by decide, by decide⟩

/-- **C8 (amended).** Course metadata headers are not checked in fixed
positions: the scan examines exactly lines 2-4 (indices 1-3) — lines beyond
the fourth never contribute — and, on those three lines, the recognized
course link is the last line matching the `Course Link:` pattern and the
recognized instructor is the last line matching the `Course Instructor:`
pattern (`"Unknown"`, later mapped to no instructor, when none matches). -/
theorem c8_headers_scanned_lines_2_to_4 (lines : List String) :
    scanMeta lines = scanMeta (lines.take 4) ∧
    (scanMeta lines).1
      = lastMatch (fun l => matchHeader "Course Link:" (pyStripS l)) ((lines.drop 1).take 3) ∧
    (scanMeta lines).2
      = (lastMatch (fun l => matchHeader "Course Instructor:" (pyStripS l))
          ((lines.drop 1).take 3)).getD "Unknown" := by
  refine ⟨?_, ?_, ?_⟩
  · rw [scanMeta, scanMeta, List.drop_take, List.take_take]
    norm_num
  · rw [scanMeta, scanFold_link]
    cases lastMatch (fun l => matchHeader "Course Link:" (pyStripS l)) ((lines.drop 1).take 3) <;>
      rfl
  · rw [scanMeta, scanFold_instructor]
    cases lastMatch (fun l => matchHeader "Course Instructor:" (pyStripS l))
      ((lines.drop 1).take 3) <;> rfl

/-! ## Claim C9: markers with empty bodies contribute nothing -/

theorem sealInterior_none (cs ov : Nat) (ct : String)
    (lsn : List Lesson) (cks : List CourseChunk) (cnt : Nat) (cont : List String) :
    sealInterior cs ov ct ⟨lsn, cks, cnt, none, cont⟩ = ⟨lsn, cks, cnt, none, cont⟩ := rfl

theorem sealInterior_some (cs ov : Nat) (ct : String)
    (lsn : List Lesson) (cks : List CourseChunk) (cnt : Nat)
    (n : Nat) (t : String) (lk : Option String) (cont : List String) :
    sealInterior cs ov ct ⟨lsn, cks, cnt, some (n, t, lk), cont⟩
      = if cont = [] then ⟨lsn, cks, cnt, some (n, t, lk), cont⟩
        else if pyStripS (joinNl cont) = "" then ⟨lsn, cks, cnt, some (n, t, lk), cont⟩
        else
          ⟨lsn ++ [{ lesson_number := n, title := t, lesson_link := lk }],
           cks ++ (chunkText cs ov (pyStripS (joinNl cont))).enum.map (fun p =>
             { content := if p.1 = 0 then "Lesson " ++ toString n ++ " content: " ++ p.2 else p.2,
               course_title := ct, lesson_number := some n, chunk_index := cnt + p.1 }),
           cnt + (chunkText cs ov (pyStripS (joinNl cont))).length,
           some (n, t, lk), cont⟩ := rfl

theorem sealFinal_none (cs ov : Nat) (ct : String)
    (lsn : List Lesson) (cks : List CourseChunk) (cnt : Nat) (cont : List String) :
    sealFinal cs ov ct ⟨lsn, cks, cnt, none, cont⟩ = ⟨lsn, cks, cnt, none, cont⟩ := rfl

theorem sealFinal_some (cs ov : Nat) (ct : String)
    (lsn : List Lesson) (cks : List CourseChunk) (cnt : Nat)
    (n : Nat) (t : String) (lk : Option String) (cont : List String) :
    sealFinal cs ov ct ⟨lsn, cks, cnt, some (n, t, lk), cont⟩
      = if cont = [] then ⟨lsn, cks, cnt, some (n, t, lk), cont⟩
        else if pyStripS (joinNl cont) = "" then ⟨lsn, cks, cnt, some (n, t, lk), cont⟩
        else
          ⟨lsn ++ [{ lesson_number := n, title := t, lesson_link := lk }],
           cks ++ (chunkText cs ov (pyStripS (joinNl cont))).enum.map (fun p =>
             { content := "Course " ++ ct ++ " Lesson " ++ toString n ++ " content: " ++ p.2,
               course_title := ct, lesson_number := some n, chunk_index := cnt + p.1 }),
           cnt + (chunkText cs ov (pyStripS (joinNl cont))).length,
           some (n, t, lk), cont⟩ := rfl

theorem segLesson_nilBody (n : Nat) (t : String) (lk : Option String) :
    segLesson ((n, t, lk), ([] : List String)) = none := rfl

theorem bodyLoopF_zero (cs ov : Nat) (ct : String) (lines : List String) (st : BodyState) :
    bodyLoopF cs ov ct 0 lines st = st := rfl

theorem bodyLoopF_succ_nil (cs ov : Nat) (ct : String) (fuel : Nat) (st : BodyState) :
    bodyLoopF cs ov ct (fuel + 1) [] st = st := rfl

theorem bodyLoopF_succ_cons (cs ov : Nat) (ct : String) (fuel : Nat)
    (line : String) (rest : List String) (st : BodyState) :
    bodyLoopF cs ov ct (fuel + 1) (line :: rest) st
      = match matchLessonMarker (pyStripS line) with
        | some (n, t) =>
          (match rest with
           | next :: rest2 =>
             (match matchHeader "Lesson Link:" (pyStripS next) with
              | some lk =>
                bodyLoopF cs ov ct fuel rest2
                  { sealInterior cs ov ct st with cur := some (n, t, some lk), content := [] }
              | none =>
                bodyLoopF cs ov ct fuel rest
                  { sealInterior cs ov ct st with cur := some (n, t, none), content := [] })
           | [] => { sealInterior cs ov ct st with cur := some (n, t, none), content := [] })
        | none => bodyLoopF cs ov ct fuel rest { st with content := st.content ++ [line] } := rfl

theorem lessonSegmentsF_zero (lines : List String)
    (cur : Option (Nat × String × Option String)) (content : List String) :
    lessonSegmentsF 0 lines cur content
      = (match cur with
         | some c => [(c, content)]
         | none => []) := rfl

theorem lessonSegmentsF_succ_nil (fuel : Nat)
    (cur : Option (Nat × String × Option String)) (content : List String) :
    lessonSegmentsF (fuel + 1) [] cur content
      = (match cur with
         | some c => [(c, content)]
         | none => []) := rfl

theorem lessonSegmentsF_succ_cons (fuel : Nat) (line : String) (rest : List String)
    (cur : Option (Nat × String × Option String)) (content : List String) :
    lessonSegmentsF (fuel + 1) (line :: rest) cur content
      = match matchLessonMarker (pyStripS line) with
        | some (n, t) =>
          (match rest with
           | next :: rest2 =>
             (match matchHeader "Lesson Link:" (pyStripS next) with
              | some lk =>
                (match cur with
                 | some c => [(c, content)]
                 | none => []) ++ lessonSegmentsF fuel rest2 (some (n, t, some lk)) []
              | none =>
                (match cur with
                 | some c => [(c, content)]
                 | none => []) ++ lessonSegmentsF fuel rest (some (n, t, none)) [])
           | [] =>
             (match cur with
              | some c => [(c, content)]
              | none => []) ++ [((n, t, none), [])])
        | none => lessonSegmentsF fuel rest cur (content ++ [line]) := rfl

theorem sealInterior_lessons (cs ov : Nat) (ct : String) (st : BodyState) :
    (sealInterior cs ov ct st).lessons
      = st.lessons ++ (match st.cur with
          | none => []
          | some c => (segLesson (c, st.content)).toList) := by
  obtain ⟨lsn, cks, cnt, cur, cont⟩ := st
  cases cur with
  | none => simp [sealInterior_none]
  | some c =>
    obtain ⟨n, t, lk⟩ := c
    rw [sealInterior_some]
    by_cases h1 : cont = []
    · rw [if_pos h1, h1]
      simp [segLesson_nilBody]
    · rw [if_neg h1]
      by_cases h2 : pyStripS (joinNl cont) = ""
      · rw [if_pos h2]
        have hs : segLesson ((n, t, lk), cont) = none := by
          rw [segLesson, if_pos h2]
        simp [hs]
      · rw [if_neg h2]
        have hs : segLesson ((n, t, lk), cont)
            = some { lesson_number := n, title := t, lesson_link := lk } := by
          rw [segLesson, if_neg h2]
        simp [hs]

theorem sealFinal_lessons (cs ov : Nat) (ct : String) (st : BodyState) :
    (sealFinal cs ov ct st).lessons
      = st.lessons ++ (match st.cur with
          | none => []
          | some c => (segLesson (c, st.content)).toList) := by
  obtain ⟨lsn, cks, cnt, cur, cont⟩ := st
  cases cur with
  | none => simp [sealFinal_none]
  | some c =>
    obtain ⟨n, t, lk⟩ := c
    rw [sealFinal_some]
    by_cases h1 : cont = []
    · rw [if_pos h1, h1]
      simp [segLesson_nilBody]
    · rw [if_neg h1]
      by_cases h2 : pyStripS (joinNl cont) = ""
      · rw [if_pos h2]
        have hs : segLesson ((n, t, lk), cont) = none := by
          rw [segLesson, if_pos h2]
        simp [hs]
      · rw [if_neg h2]
        have hs : segLesson ((n, t, lk), cont)
            = some { lesson_number := n, title := t, lesson_link := lk } := by
          rw [segLesson, if_neg h2]
        simp [hs]

/-- The scan of the body lines followed by the trailing seal appends to the
accumulated lessons exactly the marked segments (the open one included)
whose trimmed body text is non-empty. -/
theorem bodyLessons (cs ov : Nat) (ct : String) :
    ∀ (fuel : Nat) (lines : List String) (st : BodyState),
      (sealFinal cs ov ct (bodyLoopF cs ov ct fuel lines st)).lessons
        = st.lessons ++ (lessonSegmentsF fuel lines st.cur st.content).filterMap segLesson := by
  intro fuel
  induction fuel with
  | zero =>
    intro lines st
    rw [bodyLoopF_zero, lessonSegmentsF_zero, sealFinal_lessons]
    cases hc : st.cur with
    | none => simp
    | some c => cases hs : segLesson (c, st.content) <;> simp [hs]
  | succ fuel ih =>
    intro lines st
    cases lines with
    | nil =>
      rw [bodyLoopF_succ_nil, lessonSegmentsF_succ_nil, sealFinal_lessons]
      cases hc : st.cur with
      | none => simp
      | some c => cases hs : segLesson (c, st.content) <;> simp [hs]
    | cons line rest =>
      rw [bodyLoopF_succ_cons, lessonSegmentsF_succ_cons]
      cases hm : matchLessonMarker (pyStripS line) with
      | none => exact ih rest { st with content := st.content ++ [line] }
      | some p =>
        obtain ⟨n, t⟩ := p
        dsimp only
        cases rest with
        | nil =>
          dsimp only
          rw [sealFinal_lessons]
          dsimp only
          rw [sealInterior_lessons, List.filterMap_append, List.append_assoc]
          congr 1
          cases hc : st.cur with
          | none => simp [segLesson_nilBody]
          | some c => cases hs : segLesson (c, st.content) <;> simp [hs, segLesson_nilBody]
        | cons next rest2 =>
          dsimp only
          cases hl : matchHeader "Lesson Link:" (pyStripS next) with
          | some lk =>
            dsimp only
            rw [ih rest2 { sealInterior cs ov ct st with
                  cur := some (n, t, some lk), content := [] }]
            dsimp only
            rw [sealInterior_lessons, List.filterMap_append, List.append_assoc]
            congr 1
            cases hc : st.cur with
            | none => simp
            | some c => cases hs : segLesson (c, st.content) <;> simp [hs]
          | none =>
            dsimp only
            rw [ih (next :: rest2) { sealInterior cs ov ct st with
                  cur := some (n, t, none), content := [] }]
            dsimp only
            rw [sealInterior_lessons, List.filterMap_append, List.append_assoc]
            congr 1
            cases hc : st.cur with
            | none => simp
            | some c => cases hs : segLesson (c, st.content) <;> simp [hs]

theorem chunksOk_sealInterior (cs ov : Nat) (ct : String) (st : BodyState)
    (h : chunksOk st) : chunksOk (sealInterior cs ov ct st) := by
  obtain ⟨lsn, cks, cnt, cur, cont⟩ := st
  cases cur with
  | none => rw [sealInterior_none]; exact h
  | some c =>
    obtain ⟨n, t, lk⟩ := c
    rw [sealInterior_some]
    by_cases h1 : cont = []
    · rw [if_pos h1]; exact h
    · rw [if_neg h1]
      by_cases h2 : pyStripS (joinNl cont) = ""
      · rw [if_pos h2]; exact h
      · rw [if_neg h2]
        intro ch hch m hm
        rcases List.mem_append.mp hch with hold | hnew
        · have hmem := h ch hold m hm
          rw [List.map_append]
          exact List.mem_append_left _ hmem
        · obtain ⟨p, _, hpe⟩ := List.mem_map.mp hnew
          rw [← hpe] at hm
          simp only at hm
          rw [List.map_append]
          apply List.mem_append_right
          have hn : n = m := Option.some.inj hm
          simp [← hn]

theorem chunksOk_sealFinal (cs ov : Nat) (ct : String) (st : BodyState)
    (h : chunksOk st) : chunksOk (sealFinal cs ov ct st) := by
  obtain ⟨lsn, cks, cnt, cur, cont⟩ := st
  cases cur with
  | none => rw [sealFinal_none]; exact h
  | some c =>
    obtain ⟨n, t, lk⟩ := c
    rw [sealFinal_some]
    by_cases h1 : cont = []
    · rw [if_pos h1]; exact h
    · rw [if_neg h1]
      by_cases h2 : pyStripS (joinNl cont) = ""
      · rw [if_pos h2]; exact h
      · rw [if_neg h2]
        intro ch hch m hm
        rcases List.mem_append.mp hch with hold | hnew
        · have hmem := h ch hold m hm
          rw [List.map_append]
          exact List.mem_append_left _ hmem
        · obtain ⟨p, _, hpe⟩ := List.mem_map.mp hnew
          rw [← hpe] at hm
          simp only at hm
          rw [List.map_append]
          apply List.mem_append_right
          have hn : n = m := Option.some.inj hm
          simp [← hn]

theorem chunksOk_bodyLoopF (cs ov : Nat) (ct : String) :
    ∀ (fuel : Nat) (lines : List String) (st : BodyState),
      chunksOk st → chunksOk (bodyLoopF cs ov ct fuel lines st) := by
  intro fuel
  induction fuel with
  | zero => intro lines st h; rw [bodyLoopF_zero]; exact h
  | succ fuel ih =>
    intro lines st h
    cases lines with
    | nil => rw [bodyLoopF_succ_nil]; exact h
    | cons line rest =>
      rw [bodyLoopF_succ_cons]
      cases hm : matchLessonMarker (pyStripS line) with
      | none => exact ih rest _ h
      | some p =>
        obtain ⟨n, t⟩ := p
        dsimp only
        have hseal := chunksOk_sealInterior cs ov ct st h
        cases rest with
        | nil => exact hseal
        | cons next rest2 =>
          dsimp only
          cases hl : matchHeader "Lesson Link:" (pyStripS next) with
          | some lk => exact ih rest2 _ hseal
          | none => exact ih (next :: rest2) _ hseal

/-! ## Claim C9: theorem -/

/-- **C9.** For every document, the returned course's lessons list is
exactly the list of marked lessons whose accumulated body text is non-empty
after trimming (a marker immediately followed by another marker or by end
of input contributes no Lesson), and every chunk carrying a lesson number
is attributed to one of those retained lessons (an empty-bodied marker
contributes no chunks of its own). -/
theorem c9_empty_marked_lessons (chunkSize overlap : Nat) (content filename : String) :
    (processCourseDocument chunkSize overlap content filename).1.lessons
      = (lessonSegments
          ((docLines content).drop (startIndexOf (docLines content)))).filterMap segLesson ∧
    ∀ ch ∈ (processCourseDocument chunkSize overlap content filename).2, ∀ n,
      ch.lesson_number = some n →
      n ∈ ((processCourseDocument chunkSize overlap content filename).1.lessons).map
            Lesson.lesson_number := by
  have hinit : chunksOk (⟨[], [], 0, none, []⟩ : BodyState) := by
    intro ch hch n hn
    exact absurd hch (List.not_mem_nil ch)
  have hok : chunksOk (bodyState chunkSize overlap (titleOf (docLines content) filename)
      (docLines content) (startIndexOf (docLines content))) := by
    rw [bodyState, bodyLoop]
    exact chunksOk_sealFinal _ _ _ _ (chunksOk_bodyLoopF _ _ _ _ _ _ hinit)
  have hlessons : (processCourseDocument chunkSize overlap content filename).1.lessons
      = (lessonSegments
          ((docLines content).drop (startIndexOf (docLines content)))).filterMap segLesson := by
    show (bodyState chunkSize overlap (titleOf (docLines content) filename)
        (docLines content) (startIndexOf (docLines content))).lessons = _
    rw [bodyState, bodyLoop, bodyLessons, lessonSegments]
    simp
  refine ⟨hlessons, ?_⟩
  intro ch hch n hn
  have hchunks : (processCourseDocument chunkSize overlap content filename).2
      = finalChunks chunkSize overlap (titleOf (docLines content) filename)
          (docLines content) (startIndexOf (docLines content)) := rfl
  rw [hchunks, finalChunks] at hch
  by_cases hc : (bodyState chunkSize overlap (titleOf (docLines content) filename)
      (docLines content) (startIndexOf (docLines content))).chunks = []
      ∧ 2 < (docLines content).length
  · rw [if_pos hc] at hch
    by_cases hr : pyStripS (joinNl ((docLines content).drop
        (startIndexOf (docLines content)))) = ""
    · rw [if_pos hr, hc.1] at hch
      exact absurd hch (List.not_mem_nil ch)
    · rw [if_neg hr] at hch
      obtain ⟨p, _, hpe⟩ := List.mem_map.mp hch
      rw [← hpe] at hn
      simp only at hn
      exact absurd hn (Option.noConfusion)
  · rw [if_neg hc] at hch
    exact hok ch hch n hn

/-- **C9 witness.** In `docEmptyLesson` the marker `Lesson 1: A` is
immediately followed by `Lesson 2: B`, so only lesson 2 survives. -/
theorem c9_empty_marked_lessons_witness :
    (processCourseDocument 50 0 docEmptyLesson "f.txt").1.lessons
        = (lessonSegments
            ((docLines docEmptyLesson).drop
              (startIndexOf (docLines docEmptyLesson)))).filterMap segLesson ∧
    (processCourseDocument 50 0 docEmptyLesson "f.txt").1.lessons
        = [{ lesson_number := 2, title := "B", lesson_link := none }] :=
  ⟨(c9_empty_marked_lessons 50 0 docEmptyLesson "f.txt").1, by decide⟩

/-! ## Claim C10: instructor `Unknown` is mapped to no instructor -/

/-- **C10.** A document whose extracted instructor value is the literal
string `"Unknown"` (for example one whose header line reads
`Course Instructor: Unknown`) yields a Course with `instructor = none`,
indistinguishable from a document that has no instructor header at all:
the returned instructor is `none` exactly when the scanned value is
`"Unknown"`, the placeholder used when no header matches. -/
theorem c10_unknown_instructor_dropped :
    (∀ (chunkSize overlap : Nat) (content filename : String),
        (processCourseDocument chunkSize overlap content filename).1.instructor = none
          ↔ (scanMeta (docLines content)).2 = "Unknown") ∧
    (scanMeta (docLines docUnknownInstructor)).2 = "Unknown" ∧
    (processCourseDocument 100 0 docUnknownInstructor "f.txt").1.instructor = none := by
  refine ⟨?_, by decide, by decide⟩
  intro chunkSize overlap content filename
  by_cases h : (scanMeta (docLines content)).2 = "Unknown"
  · simp [processCourseDocument, h]
  · simp [processCourseDocument, h]

/-! ## Claim C7: the filter builder -/

/-- **C7 counterexample.** The claim as stated fails for an empty-string
title: `_build_filter` tests the title by Python truthiness, so
`(some "", none)` — title present, lesson absent — yields no filter instead
of an equality predicate on `course_title`, and `(some "", some 2)` — both
present — yields the lesson-only predicate instead of a conjunction. -/
theorem c7_counterexample :
    buildFilter (some "") none = none ∧
    buildFilter (some "") (some 2)
      = some (WhereClause.eq "lesson_number" (ChromaVal.int 2)) :=
  ⟨rfl, rfl⟩

/-- **C7 (amended).** `_build_filter` is a total, pure function with
exactly four cases once "title present" is read by Python truthiness (a
`None` or empty-string title counts as absent, a lesson number is absent
only when `None`): both absent — no filter; truthy title only — equality on
`course_title`; lesson only — equality on `lesson_number`; both present —
the `$and` conjunction of the two equality predicates. -/
theorem c7_filter_cases (courseTitle : Option String) (lessonNumber : Option Int) :
    (strTruthy courseTitle = false → lessonNumber = none →
        buildFilter courseTitle lessonNumber = none) ∧
    (∀ t, courseTitle = some t → strTruthy courseTitle = true →
      ∀ n, lessonNumber = some n →
        buildFilter courseTitle lessonNumber
          = some (WhereClause.conj [WhereClause.eq "course_title" (ChromaVal.str t),
              WhereClause.eq "lesson_number" (ChromaVal.int n)])) ∧
    (∀ t, courseTitle = some t → strTruthy courseTitle = true → lessonNumber = none →
        buildFilter courseTitle lessonNumber
          = some (WhereClause.eq "course_title" (ChromaVal.str t))) ∧
    (strTruthy courseTitle = false → ∀ n, lessonNumber = some n →
        buildFilter courseTitle lessonNumber
          = some (WhereClause.eq "lesson_number" (ChromaVal.int n))) := by
  refine ⟨?_, ?_, ?_, ?_⟩
  · intro h1 h2
    subst h2
    rw [buildFilter]
    simp [h1]
  · intro t ht hT n hn
    subst ht
    subst hn
    rw [buildFilter]
    simp [hT]
  · intro t ht hT h2
    subst ht
    subst h2
    rw [buildFilter]
    simp [hT]
  · intro h1 n hn
    subst hn
    rw [buildFilter]
    simp [h1]

/-- **C7 witness.** A truthy title together with a lesson number produces
the `$and` conjunction. -/
theorem c7_filter_cases_witness :
    buildFilter (some "Intro") (some 1)
      = some (WhereClause.conj [WhereClause.eq "course_title" (ChromaVal.str "Intro"),
          WhereClause.eq "lesson_number" (ChromaVal.int 1)]) :=
  (c7_filter_cases (some "Intro") (some 1)).2.1 "Intro" rfl rfl 1 rfl

/-! ## Claim C6: course-name resolution -/

/-- **C6.** Under the external index contract — one inner list per query
text, metadata in lockstep with documents, every catalog entry exposing a
`title` — `_resolve_course_name` returns `None` exactly when the query
fails or the catalog returns no entry (an empty collection), and otherwise
returns the top-1 hit's title, with no similarity threshold consulted. -/
theorem c6_resolver_characterization {M D : Type} (getTitle : M → Option String)
    (r : ChromaReply M D) (d0 : List String) (m0 : List M)
    (hdoc : r.documents = [d0]) (hmeta : r.metadatas = [m0])
    (hlen : m0.length = d0.length)
    (htitle : ∀ m ∈ m0, (getTitle m).isSome) :
    (resolveCourseName getTitle (Except.ok r) = none ↔ d0 = []) ∧
    (∀ m ms, m0 = m :: ms → resolveCourseName getTitle (Except.ok r) = getTitle m) ∧
    (∀ e : String,
      resolveCourseName getTitle (Except.error e : Except String (ChromaReply M D))
        = none) := by
  have hres : resolveCourseName getTitle (Except.ok r)
      = if !d0.isEmpty && !m0.isEmpty then
          (match m0.head? with
           | some m => getTitle m
           | none => none)
        else none := by
    rw [resolveCourseName, hdoc, hmeta]
    rfl
  cases d0 with
  | nil =>
    have hm0 : m0 = [] := List.length_eq_zero.mp (by rw [hlen]; rfl)
    subst hm0
    refine ⟨?_, ?_, fun e => rfl⟩
    · rw [hres]; simp
    · intro m ms h
      exact absurd h (by simp)
  | cons d ds =>
    cases m0 with
    | nil => simp at hlen
    | cons m ms =>
      have hsome := htitle m (List.mem_cons_self m ms)
      have hval : resolveCourseName getTitle (Except.ok r) = getTitle m := by
        rw [hres]; rfl
      refine ⟨?_, ?_, fun e => rfl⟩
      · rw [hval]
        constructor
        · intro h
          rw [h] at hsome
          exact absurd hsome (by simp)
        · intro h
          exact absurd h (by simp)
      · intro m2 ms2 h
        have h1 : m = m2 := (List.cons.injEq m ms m2 ms2 ▸ h).1
        rw [hval, h1]

/-- **C6 witness.** A well-formed single-entry catalog resolves to the top
hit's title. -/
theorem c6_resolver_characterization_witness :
    resolveCourseName (fun m : String => some m)
        (Except.ok ({ documents := [["Intro"]], metadatas := [["Intro"]],
                      distances := [[(0 : Int)]] } : ChromaReply String Int))
      = some "Intro" :=
  (c6_resolver_characterization (fun m : String => some m)
      ({ documents := [["Intro"]], metadatas := [["Intro"]],
         distances := [[(0 : Int)]] } : ChromaReply String Int)
      ["Intro"] ["Intro"] rfl rfl rfl (by simp)).2.1 "Intro" [] rfl

/-! ## Claim C5: classification of search outcomes -/

/-- **C5.** Every search lands in exactly one of three distinguishable
outcomes.  (1) When the course name is truthy and resolution yields no
truthy title, the result is the error result
`"No course found matching '<course_name>'"` — for **every** content
oracle, i.e. without querying the content collection.  (2) Otherwise, an
index failure is wrapped into an error result carrying the failure
description.  (3) Otherwise the result carries the reply's first ranked
document/metadata/distance lists unchanged and in lockstep, with no error
string — in particular a zero-match reply gives an empty, error-free
result. -/
theorem c5_search_classification {M D : Type} (getTitle : M → Option String)
    (catalogReply : Except String (ChromaReply M D))
    (contentQuery : String → Option WhereClause → Nat → Except String (ChromaReply M D))
    (queryText : String) (courseName : Option String) (lessonNumber : Option Int)
    (limit : Option Nat) (maxResults : Nat) (courseTitle : Option String)
    (hct : courseTitle
      = if strTruthy courseName then resolveCourseName getTitle catalogReply else none) :
    ((strTruthy courseName = true ∧ strTruthy courseTitle = false) →
      ∀ cq2 : String → Option WhereClause → Nat → Except String (ChromaReply M D),
        vsSearch getTitle catalogReply cq2 queryText courseName lessonNumber limit maxResults
          = SearchResults.emptyWith M D
              ("No course found matching \x27" ++ courseName.getD "" ++ "\x27")) ∧
    (¬ (strTruthy courseName = true ∧ strTruthy courseTitle = false) →
      (∀ e : String,
        contentQuery queryText (buildFilter courseTitle lessonNumber) (limit.getD maxResults)
            = Except.error e →
        vsSearch getTitle catalogReply contentQuery queryText courseName lessonNumber limit
            maxResults
          = SearchResults.emptyWith M D ("Search error: " ++ e)) ∧
      (∀ r : ChromaReply M D,
        contentQuery queryText (buildFilter courseTitle lessonNumber) (limit.getD maxResults)
            = Except.ok r →
        vsSearch getTitle catalogReply contentQuery queryText courseName lessonNumber limit
            maxResults
          = { documents := r.documents.head?.getD [], metadata := r.metadatas.head?.getD [],
              distances := r.distances.head?.getD [], error := none })) := by
  constructor
  · intro hfail cq2
    rw [vsSearch, ← hct]
    rw [hfail.1, hfail.2]
    rfl
  · intro hno
    have hb : (strTruthy courseName && !strTruthy courseTitle) = false := by
      cases hcn : strTruthy courseName <;> cases hcte : strTruthy courseTitle <;>
        simp_all
    constructor
    · intro e he
      rw [vsSearch, ← hct, hb]
      simp only [Bool.false_eq_true, if_false, he]
    · intro r hr
      rw [vsSearch, ← hct, hb]
      simp only [Bool.false_eq_true, if_false, hr]
      rfl

/-- **C5 witness.** A resolvable course name and a succeeding content query
produce the lockstep result set with no error. -/
theorem c5_search_classification_witness :
    vsSearch (fun m : String => some m)
        (Except.ok ({ documents := [["Intro"]], metadatas := [["Intro"]],
                      distances := [[(0 : Int)]] } : ChromaReply String Int))
        (fun _ _ _ => Except.ok
          ({ documents := [["chunk one"]], metadatas := [["Intro"]],
             distances := [[(0 : Int)]] } : ChromaReply String Int))
        "q" (some "Intr") none none 5
      = { documents := ["chunk one"], metadata := ["Intro"], distances := [(0 : Int)],
          error := none } :=
  ((c5_search_classification (fun m : String => some m)
      (Except.ok ({ documents := [["Intro"]], metadatas := [["Intro"]],
                    distances := [[(0 : Int)]] } : ChromaReply String Int))
      (fun _ _ _ => Except.ok
        ({ documents := [["chunk one"]], metadatas := [["Intro"]],
           distances := [[(0 : Int)]] } : ChromaReply String Int))
      "q" (some "Intr") none none 5 (some "Intro") rfl).2 (by decide)).2
    ({ documents := [["chunk one"]], metadatas := [["Intro"]],
       distances := [[(0 : Int)]] } : ChromaReply String Int) rfl

end Rag
